import Mathlib

/-!
Verification of the hourglass curve and sand-outline engine (`src/curves.rs`).

The sand-outline functions use only rational arithmetic on points, so they are
embedded over `ℚ` (idealizing `f32` as exact rationals).  The curve generators
(`CircularArc`, `SmoothTransition`, `CompositeCurve`) use trigonometric
functions and square roots and are embedded over `ℝ`.
-/

namespace Hourglass

/-- A 2D point (`pub type Point2D = [f32; 2]`), idealized over `ℚ`. -/
abbrev Point2D : Type := ℚ × ℚ

/-- Which bulb to generate sand for (`pub enum SandBulb { Top, Bottom }`). -/
inductive SandBulb where
  | Top
  | Bottom
deriving DecidableEq, Repr

/-- Machine epsilon of `f32` (`f32::EPSILON = 2⁻²³`), used by the horizontal
segment guard in `calculate_line_intersection`. -/
def f32_epsilon : ℚ := 1 / 8388608

/-- Embedding of `calculate_line_intersection`: intersection point between a
line segment and a horizontal line, or `none` for (near-)horizontal segments
or when the horizontal line misses the vertical range of the segment. -/
def calculate_line_intersection (p1 p2 : Point2D) (yLine : ℚ) : Option Point2D :=
  if |p1.2 - p2.2| < f32_epsilon then none
  else
    let minY := min p1.2 p2.2
    let maxY := max p1.2 p2.2
    if yLine < minY ∨ yLine > maxY then none
    else
      let t := (yLine - p1.2) / (p2.2 - p1.2)
      some (p1.1 + t * (p2.1 - p1.1), yLine)

/-- Inclusion test of an outline point relative to the fill line, from the
body of `generate_outline_with_fill_line`: for `Top`, `y ∈ [center_y, fill_line]`;
for `Bottom`, `y ≤ center_y` and `y ≤ fill_line`. -/
def point_included (bulb : SandBulb) (centerY fillLine : ℚ) (p : Point2D) : Bool :=
  match bulb with
  | SandBulb.Top => decide (centerY ≤ p.2) && decide (p.2 ≤ fillLine)
  | SandBulb.Bottom => decide (p.2 ≤ centerY) && decide (p.2 ≤ fillLine)

/-- Fill-line crossing test of a segment, from `generate_outline_with_fill_line`:
`(c.y ≤ fill ∧ n.y > fill) ∨ (c.y > fill ∧ n.y ≤ fill)`. -/
def segment_crosses (fillLine : ℚ) (c n : Point2D) : Bool :=
  (decide (c.2 ≤ fillLine) && decide (fillLine < n.2)) ||
    (decide (fillLine < c.2) && decide (n.2 ≤ fillLine))

/-- Validity test for a computed intersection, from
`generate_outline_with_fill_line`: `Top` keeps intersections with `y ≥ center_y`,
`Bottom` keeps those with `y ≤ center_y`. -/
def intersection_valid (bulb : SandBulb) (centerY : ℚ) (q : Point2D) : Bool :=
  match bulb with
  | SandBulb.Top => decide (centerY ≤ q.2)
  | SandBulb.Bottom => decide (q.2 ≤ centerY)

/-- The stored fill-line intersection produced while processing edge `i` of the
outline in `generate_outline_with_fill_line` (the `fill_line_intersections.push`). -/
def fill_line_inter (o : List Point2D) (fillLine : ℚ) (bulb : SandBulb) (centerY : ℚ)
    (i : ℕ) : Option Point2D :=
  let c := o.getD i (0, 0)
  let n := o.getD ((i + 1) % o.length) (0, 0)
  if segment_crosses fillLine c n then
    match calculate_line_intersection c n fillLine with
    | some q => if intersection_valid bulb centerY q then some q else none
    | none => none
  else none

/-- The points pushed to `result_points` while processing edge `i` of the
outline in `generate_outline_with_fill_line`: the current point when included,
then the intersection when the inclusion state flips across the edge. -/
def fill_line_step (o : List Point2D) (fillLine : ℚ) (bulb : SandBulb) (centerY : ℚ)
    (i : ℕ) : List Point2D :=
  let c := o.getD i (0, 0)
  let n := o.getD ((i + 1) % o.length) (0, 0)
  let ci := point_included bulb centerY fillLine c
  let ni := point_included bulb centerY fillLine n
  (if ci then [c] else []) ++
    (match fill_line_inter o fillLine bulb centerY i with
     | some q => if ci ≠ ni then [q] else []
     | none => [])

/-- Appending each element of `l` to `res` unless already present
(the closing loop `if !result_points.contains(intersection) { push }`). -/
def push_unique (res l : List Point2D) : List Point2D :=
  l.foldl (fun r q => if q ∈ r then r else r ++ [q]) res

/-- Embedding of `generate_outline_with_fill_line`: one pass over the outline
edges collecting included points and flip intersections, then the stored
intersections are re-emitted (sorted by x, reversed for `Top`, forward for
`Bottom`) skipping duplicates. -/
def generate_outline_with_fill_line (o : List Point2D) (fillLine : ℚ) (bulb : SandBulb)
    (centerY : ℚ) : List Point2D :=
  let res := (List.range o.length).flatMap (fill_line_step o fillLine bulb centerY)
  let inters := (List.range o.length).filterMap (fill_line_inter o fillLine bulb centerY)
  if inters = [] then res
  else
    let sorted := List.insertionSort (fun a b : Point2D => a.1 ≤ b.1) inters
    match bulb with
    | SandBulb.Top => push_unique res sorted.reverse
    | SandBulb.Bottom => push_unique res sorted

/-- The mounded fill-line closure of `generate_outline_with_mounded_fill_line`:
a parabolic mound over the flat base fill line, of height
`strength * sand_width * 0.1 * (1 - normalized_x²)` with the normalized x
clamped into `[-1, 1]`. -/
def mounded_fill_line (base strength leftX rightX x : ℚ) : ℚ :=
  let sw := rightX - leftX
  if sw ≤ 0 then base
  else
    let nx0 := (x - (leftX + rightX) * (1 / 2)) / (sw * (1 / 2))
    let nx := max (-1) (min nx0 1)
    base + strength * sw * (1 / 10) * (1 - nx * nx)

/-- The `left_x` / `right_x` scan of `generate_outline_with_mounded_fill_line`:
intersections of outline edges with the base fill line, negative x recorded on
the left, nonnegative on the right, later edges overwriting earlier ones. -/
def sand_width_bounds (o : List Point2D) (base : ℚ) : ℚ × ℚ :=
  (List.range o.length).foldl
    (fun lr i =>
      let c := o.getD i (0, 0)
      let n := o.getD ((i + 1) % o.length) (0, 0)
      match calculate_line_intersection c n base with
      | some q => if q.1 < 0 then (q.1, lr.2) else (lr.1, q.1)
      | none => lr)
    (0, 0)

/-- Inclusion test against the mounded fill line:
`y ≤ center_y ∧ y ≤ mounded_fill_line(x)`. -/
def mound_included (centerY : ℚ) (mfl : ℚ → ℚ) (p : Point2D) : Bool :=
  decide (p.2 ≤ centerY) && decide (p.2 ≤ mfl p.1)

/-- The approximate crossing point for edge `i` against the mounded fill line:
the edge is sampled at `t = j/10, j = 1..9`, and the first sample whose
inclusion state differs from the current endpoint yields the emitted point
`(sample_x, mounded_fill_line(sample_x))`. -/
def mound_inter (o : List Point2D) (centerY : ℚ) (mfl : ℚ → ℚ) (i : ℕ) : Option Point2D :=
  let c := o.getD i (0, 0)
  let n := o.getD ((i + 1) % o.length) (0, 0)
  let ci := mound_included centerY mfl c
  let ni := mound_included centerY mfl n
  if ci ≠ ni then
    ((List.range' 1 9).find? (fun j =>
        let t := (j : ℚ) / 10
        let sx := c.1 * (1 - t) + n.1 * t
        let sy := c.2 * (1 - t) + n.2 * t
        mound_included centerY mfl (sx, sy) != ci)).map
      (fun j =>
        let t := (j : ℚ) / 10
        let sx := c.1 * (1 - t) + n.1 * t
        (sx, mfl sx))
  else none

/-- The points pushed to `result_points` while processing edge `i` in
`generate_outline_with_mounded_fill_line`: the current point when included,
then the sampled crossing point when the inclusion state flips. -/
def mound_step (o : List Point2D) (centerY : ℚ) (mfl : ℚ → ℚ) (i : ℕ) : List Point2D :=
  let c := o.getD i (0, 0)
  (if mound_included centerY mfl c then [c] else []) ++
    (match mound_inter o centerY mfl i with
     | some q => [q]
     | none => [])

/-- Embedding of `generate_outline_with_mounded_fill_line`: zero mound factor
or nonpositive sand width fall back to the flat fill line; otherwise the
outline is clipped against the mounded fill line and, when at least two
crossings were found, 21 extra crest points along the mound between the
leftmost and rightmost crossing are appended. -/
def generate_outline_with_mounded_fill_line (o : List Point2D)
    (base centerY moundFactor fillPercent : ℚ) : List Point2D :=
  if moundFactor = 0 then generate_outline_with_fill_line o base SandBulb.Bottom centerY
  else
    let strength := moundFactor * fillPercent
    let lr := sand_width_bounds o base
    let sw := lr.2 - lr.1
    if sw ≤ 0 then generate_outline_with_fill_line o base SandBulb.Bottom centerY
    else
      let mfl := mounded_fill_line base strength lr.1 lr.2
      let res := (List.range o.length).flatMap (mound_step o centerY mfl)
      let inters := (List.range o.length).filterMap (mound_inter o centerY mfl)
      if inters = [] then res
      else
        let sorted := List.insertionSort (fun a b : Point2D => a.1 ≤ b.1) inters
        if 2 ≤ sorted.length then
          let leftmost := sorted.headD (0, 0)
          let rightmost := sorted.getLastD (0, 0)
          res ++ (List.range 21).map (fun (i : ℕ) =>
            let t := (i : ℚ) / 20
            let x := leftmost.1 * (1 - t) + rightmost.1 * t
            (x, mfl x))
        else res

/-- Fill-line placement of `generate_sand_outline` (the hourglass is centered
at `center_y = 0`): `Top` interpolates from `center_y` up to `max_y`; `Bottom`
interpolates from `min_y` up to `neck_bottom = center_y - neck_height/2`. -/
def sand_fill_line (bulb : SandBulb) (fillPercent neckHeight minY maxY : ℚ) : ℚ :=
  let centerY : ℚ := 0
  let neckBottom := centerY - neckHeight / 2
  match bulb with
  | SandBulb.Top => centerY + fillPercent * (maxY - centerY)
  | SandBulb.Bottom => minY + (1 - fillPercent) * (neckBottom - minY)

/-- Per-point wall-offset insetting of `generate_sand_outline`: points are
moved horizontally toward the centerline by `wall_offset`, except that inside
the neck band (`|y - center_y| ≤ neck_height/2`) the offset is clamped so the
result does not cross a half-unit strip around the centerline. -/
def offset_point (wallOffset neckHeight centerY : ℚ) (p : Point2D) : Point2D :=
  let off :=
    if |p.2 - centerY| ≤ neckHeight / 2 then
      let potential := if 0 ≤ p.1 then p.1 - wallOffset else p.1 + wallOffset
      if 0 ≤ p.1 ∧ potential ≤ 1 / 2 then max (p.1 - 1 / 2) 0
      else if p.1 < 0 ∧ -(1 / 2) ≤ potential then max (-p.1 - 1 / 2) 0
      else wallOffset
    else wallOffset
  if 0 ≤ p.1 then (p.1 - off, p.2) else (p.1 + off, p.2)

/-- Embedding of `generate_sand_outline`: clip the body outline against the
bulb fill line (mounded for `Bottom`), inset every retained point by the wall
offset, and for a flowing `Top` bulb append the two falling-stream points
down to `min_y`. -/
def generate_sand_outline (o : List Point2D) (fillPercent wallOffset : ℚ)
    (bulb : SandBulb) (neckHeight minY maxY moundFactor : ℚ) : List Point2D :=
  if o = [] then []
  else
    let fl := sand_fill_line bulb fillPercent neckHeight minY maxY
    let filtered :=
      match bulb with
      | SandBulb.Bottom =>
          generate_outline_with_mounded_fill_line o fl 0 moundFactor fillPercent
      | SandBulb.Top => generate_outline_with_fill_line o fl SandBulb.Top 0
    if filtered = [] then []
    else
      let sand := filtered.map (offset_point wallOffset neckHeight 0)
      if bulb = SandBulb.Top ∧ sand ≠ [] ∧ 0 < fillPercent then
        sand ++ [((sand.getLastD (0, 0)).1, minY), ((sand.headD (0, 0)).1, minY)]
      else sand

/-- The `Top`-bulb sand points of `generate_sand_outline` before the falling
stream is appended: the flat-clipped outline with the wall offset applied. -/
def top_sand_points (o : List Point2D) (fillPercent wallOffset neckHeight minY maxY : ℚ) :
    List Point2D :=
  (generate_outline_with_fill_line o (sand_fill_line SandBulb.Top fillPercent neckHeight minY maxY)
      SandBulb.Top 0).map (offset_point wallOffset neckHeight 0)

/-- One cyclic shoelace term of the returned polygon. -/
def shoelace_term (pts : List Point2D) (i : ℕ) : ℚ :=
  let c := pts.getD i (0, 0)
  let n := pts.getD ((i + 1) % pts.length) (0, 0)
  c.1 * n.2 - n.1 * c.2

/-- Cyclic shoelace sum of a point sequence. -/
def shoelace_sum (pts : List Point2D) : ℚ :=
  (List.range pts.length).foldl (fun acc i => acc + shoelace_term pts i) 0

/-- Total area of the polygon described by a returned point sequence (standard
shoelace formula), used to state the area claims of the specification. -/
def polygon_area (pts : List Point2D) : ℚ :=
  |shoelace_sum pts| / 2

/-- Concrete body outline (a square crossing the midline), used as input data. -/
def sqOutline : List Point2D := [(-1, -1), (1, -1), (1, 1), (-1, 1)]

/-- Concrete body outline whose lower edge sits inside the neck band, used as
input data. -/
def neckBandOutline : List Point2D := [(1, -1), (1, -2), (-1, -2), (-1, -1)]

/-- Concrete body outline (a triangle above the midline with an off-center
apex), used as input data. -/
def apexOutline : List Point2D := [(1 / 10, 3 / 2), (3, 1), (-3, 1)]

/-- Concrete body outline (a wide square), used as input data. -/
def wideOutline : List Point2D := [(2, -2), (2, 2), (-2, 2), (-2, -2)]

noncomputable section Curves

/-- Configuration for a circular arc curve (`pub struct CircularArc`). -/
structure CircularArc where
  center : ℝ × ℝ
  radius : ℝ
  start_angle : ℝ
  end_angle : ℝ
  clockwise : Bool

/-- Start point of a circular arc (`CircularArc::start_point`). -/
def CircularArc.start_point (a : CircularArc) : ℝ × ℝ :=
  (a.center.1 + a.radius * Real.cos a.start_angle,
   a.center.2 + a.radius * Real.sin a.start_angle)

/-- End point of a circular arc (`CircularArc::end_point`). -/
def CircularArc.end_point (a : CircularArc) : ℝ × ℝ :=
  (a.center.1 + a.radius * Real.cos a.end_angle,
   a.center.2 + a.radius * Real.sin a.end_angle)

/-- The `angle_diff` computed by `CircularArc::generate_points`. -/
def CircularArc.angle_diff (a : CircularArc) : ℝ :=
  if a.clockwise then
    if a.end_angle ≤ a.start_angle then a.end_angle + 2 * Real.pi - a.start_angle
    else a.end_angle - a.start_angle
  else
    if a.start_angle ≤ a.end_angle then a.end_angle - a.start_angle
    else a.end_angle + 2 * Real.pi - a.start_angle

/-- The sample of `CircularArc::generate_points` at parameter `t`. -/
def CircularArc.point_at (a : CircularArc) (t : ℝ) : ℝ × ℝ :=
  let angle :=
    if a.clockwise then a.start_angle - t * a.angle_diff
    else a.start_angle + t * a.angle_diff
  (a.center.1 + a.radius * Real.cos angle, a.center.2 + a.radius * Real.sin angle)

/-- Embedding of `CircularArc::generate_points`: `resolution + 1` uniform
angular samples, with `resolution == 0` returning `[start, end]`. -/
def CircularArc.generate_points (a : CircularArc) (resolution : ℕ) : List (ℝ × ℝ) :=
  if resolution = 0 then [a.start_point, a.end_point]
  else (List.range (resolution + 1)).map fun (i : ℕ) =>
    a.point_at ((i : ℝ) / (resolution : ℝ))

/-- Direction of curve bending (`pub enum CurveDirection`). -/
inductive CurveDirection where
  | None
  | Inward
  | Outward
deriving DecidableEq, Repr

/-- Configuration for a smooth transition curve between two points
(`pub struct SmoothTransition`); `endp` embeds the Rust field `end`. -/
structure SmoothTransition where
  start : ℝ × ℝ
  endp : ℝ × ℝ
  curvature : ℝ
  curve_direction : CurveDirection

/-- The sample of `SmoothTransition::generate_points` at parameter `t`:
linear interpolation at zero curvature, otherwise a sinusoidal perpendicular
offset scaled by a tenth of the segment length. -/
def SmoothTransition.point_at (s : SmoothTransition) (t : ℝ) : ℝ × ℝ :=
  if s.curvature = 0 then
    (s.start.1 * (1 - t) + s.endp.1 * t, s.start.2 * (1 - t) + s.endp.2 * t)
  else
    let curve_offset :=
      match s.curve_direction with
      | CurveDirection.None => 0
      | CurveDirection.Inward => -s.curvature * Real.sin (t * Real.pi)
      | CurveDirection.Outward => s.curvature * Real.sin (t * Real.pi)
    let base_x := s.start.1 * (1 - t) + s.endp.1 * t
    let base_y := s.start.2 * (1 - t) + s.endp.2 * t
    let dx := s.endp.1 - s.start.1
    let dy := s.endp.2 - s.start.2
    let length := Real.sqrt (dx * dx + dy * dy)
    if 0 < length then
      (base_x + -dy / length * curve_offset * length * (1 / 10),
       base_y + dx / length * curve_offset * length * (1 / 10))
    else (base_x, base_y)

/-- Embedding of `SmoothTransition::generate_points`. -/
def SmoothTransition.generate_points (s : SmoothTransition) (resolution : ℕ) :
    List (ℝ × ℝ) :=
  if resolution = 0 then [s.start, s.endp]
  else (List.range (resolution + 1)).map fun (i : ℕ) =>
    s.point_at ((i : ℝ) / (resolution : ℝ))

/-- Start point of a smooth transition (`SmoothTransition::start_point`). -/
def SmoothTransition.start_point (s : SmoothTransition) : ℝ × ℝ := s.start

/-- End point of a smooth transition (`SmoothTransition::end_point`). -/
def SmoothTransition.end_point (s : SmoothTransition) : ℝ × ℝ := s.endp

/-- A curve segment held by a composite curve: the closed set of concrete
`CurveGenerator` implementations chained by the builder
(`add_arc` / `add_transition`). -/
inductive CurveSegment where
  | arc (a : CircularArc)
  | transition (s : SmoothTransition)

/-- Dispatch of `generate_points` over a curve segment. -/
def CurveSegment.generate_points : CurveSegment → ℕ → List (ℝ × ℝ)
  | CurveSegment.arc a, r => a.generate_points r
  | CurveSegment.transition s, r => s.generate_points r

/-- Dispatch of `start_point` over a curve segment. -/
def CurveSegment.start_point : CurveSegment → ℝ × ℝ
  | CurveSegment.arc a => a.start_point
  | CurveSegment.transition s => s.start_point

/-- Dispatch of `end_point` over a curve segment. -/
def CurveSegment.end_point : CurveSegment → ℝ × ℝ
  | CurveSegment.arc a => a.end_point
  | CurveSegment.transition s => s.end_point

/-- Default segment used only as the fallback of partial list accessors. -/
def defaultSegment : CurveSegment :=
  CurveSegment.transition ⟨(0, 0), (0, 0), 0, CurveDirection.None⟩

/-- A composite curve made up of multiple curve segments
(`pub struct CompositeCurve`). -/
structure CompositeCurve where
  segments : List CurveSegment

/-- The concatenation loop of `CompositeCurve::generate_points`: every segment
is sampled at the shared per-segment resolution and the first point of every
segment after the first is removed. -/
def composite_sample (segs : List CurveSegment) (sr : ℕ) : List (ℝ × ℝ) :=
  match segs with
  | [] => []
  | s :: rest =>
      s.generate_points sr ++ rest.flatMap (fun sg => (sg.generate_points sr).tail)

/-- Embedding of `CompositeCurve::generate_points`: empty composites yield no
points; otherwise the total resolution is divided by the segment count
(integer division) and the segments are sampled and concatenated. -/
def CompositeCurve.generate_points (c : CompositeCurve) (resolution : ℕ) : List (ℝ × ℝ) :=
  if c.segments.isEmpty then []
  else composite_sample c.segments (resolution / max c.segments.length 1)

/-- Embedding of `CompositeCurve::start_point`: delegates to the first
segment, defaulting to the origin. -/
def CompositeCurve.start_point (c : CompositeCurve) : ℝ × ℝ :=
  (c.segments.head?.map CurveSegment.start_point).getD (0, 0)

/-- Embedding of `CompositeCurve::end_point`: delegates to the last segment,
defaulting to the origin. -/
def CompositeCurve.end_point (c : CompositeCurve) : ℝ × ℝ :=
  (c.segments.getLast?.map CurveSegment.end_point).getD (0, 0)

/-- The clockwise arc from angle `π` to angle `π/2` on the unit circle. -/
def cwArc : CircularArc := ⟨(0, 0), 1, Real.pi, Real.pi / 2, true⟩

/-- A concrete one-segment composite curve: the straight transition from the
origin to `(1, 0)`. -/
def lineComposite : CompositeCurve :=
  ⟨[CurveSegment.transition ⟨(0, 0), (1, 0), 0, CurveDirection.None⟩]⟩

end Curves

/-! ## Helper lemmas -/

theorem getD_mem {α : Type} (l : List α) (i : ℕ) (d : α) (h : i < l.length) :
    l.getD i d ∈ l := by
  rw [List.getD_eq_getElem l d h]
  exact List.getElem_mem h

theorem foldl_add_eq_of_zero (l : List ℕ) (g : ℕ → ℚ) (a : ℚ)
    (h : ∀ i ∈ l, g i = 0) : l.foldl (fun acc i => acc + g i) a = a := by
  induction l generalizing a with
  | nil => rfl
  | cons x xs ih =>
      simp only [List.foldl_cons]
      rw [h x (List.mem_cons_self x xs), add_zero]
      exact ih a fun i hi => h i (List.mem_cons_of_mem x hi)

theorem calculate_line_intersection_snd {p1 p2 : Point2D} {y : ℚ} {q : Point2D}
    (h : calculate_line_intersection p1 p2 y = some q) : q.2 = y := by
  unfold calculate_line_intersection at h
  dsimp only at h
  split at h
  · exact absurd h (by simp)
  · split at h
    · exact absurd h (by simp)
    · simp only [Option.some.injEq] at h
      rw [← h]

theorem fill_line_inter_snd {o : List Point2D} {fl : ℚ} {bulb : SandBulb} {cY : ℚ}
    {i : ℕ} {q : Point2D} (h : fill_line_inter o fl bulb cY i = some q) : q.2 = fl := by
  unfold fill_line_inter at h
  dsimp only at h
  split at h
  · split at h
    next q' heq =>
      split at h
      · simp only [Option.some.injEq] at h
        exact h ▸ calculate_line_intersection_snd heq
      · exact absurd h (by simp)
    next => exact absurd h (by simp)
  · exact absurd h (by simp)

theorem push_unique_mem {res l : List Point2D} {p : Point2D}
    (h : p ∈ push_unique res l) : p ∈ res ∨ p ∈ l := by
  induction l generalizing res with
  | nil => exact Or.inl h
  | cons x xs ih =>
      unfold push_unique at h ih
      simp only [List.foldl_cons] at h
      rcases ih h with h' | h'
      · split at h'
        · exact Or.inl h'
        · rcases List.mem_append.mp h' with h'' | h''
          · exact Or.inl h''
          · simp only [List.mem_singleton] at h''
            exact Or.inr (h'' ▸ List.mem_cons_self x xs)
      · exact Or.inr (List.mem_cons_of_mem x h')

theorem fill_line_step_mem {o : List Point2D} {fl : ℚ} {bulb : SandBulb} {cY : ℚ}
    {i : ℕ} {p : Point2D} (hi : i < o.length) (h : p ∈ fill_line_step o fl bulb cY i) :
    (p ∈ o ∧ point_included bulb cY fl p = true) ∨ p.2 = fl := by
  unfold fill_line_step at h
  dsimp only at h
  rcases List.mem_append.mp h with h' | h'
  · split at h'
    next hic =>
      simp only [List.mem_singleton] at h'
      exact Or.inl ⟨h' ▸ getD_mem o i (0, 0) hi, h' ▸ hic⟩
    next => exact absurd h' (List.not_mem_nil p)
  · split at h'
    next q heq =>
      split at h'
      · simp only [List.mem_singleton] at h'
        exact Or.inr (h' ▸ fill_line_inter_snd heq)
      · exact absurd h' (List.not_mem_nil p)
    next => exact absurd h' (List.not_mem_nil p)

theorem generate_outline_with_fill_line_mem {o : List Point2D} {fl : ℚ}
    {bulb : SandBulb} {cY : ℚ} {p : Point2D}
    (h : p ∈ generate_outline_with_fill_line o fl bulb cY) :
    (p ∈ o ∧ point_included bulb cY fl p = true) ∨ p.2 = fl := by
  have hinter : ∀ q ∈ (List.range o.length).filterMap (fill_line_inter o fl bulb cY),
      q.2 = fl := by
    intro q hq
    rcases List.mem_filterMap.mp hq with ⟨i, _, hi⟩
    exact fill_line_inter_snd hi
  have hres : ∀ q ∈ (List.range o.length).flatMap (fill_line_step o fl bulb cY),
      (q ∈ o ∧ point_included bulb cY fl q = true) ∨ q.2 = fl := by
    intro q hq
    rcases List.mem_flatMap.mp hq with ⟨i, hir, hstep⟩
    exact fill_line_step_mem (List.mem_range.mp hir) hstep
  have hsort : ∀ q ∈ List.insertionSort (fun a b : Point2D => a.1 ≤ b.1)
      ((List.range o.length).filterMap (fill_line_inter o fl bulb cY)), q.2 = fl := by
    intro q hq
    exact hinter q ((List.perm_insertionSort _ _).mem_iff.mp hq)
  unfold generate_outline_with_fill_line at h
  dsimp only at h
  cases bulb with
  | Top =>
      split at h
      · exact hres p h
      · rcases push_unique_mem h with h' | h'
        · exact hres p h'
        · exact Or.inr (hsort p (List.mem_reverse.mp h'))
  | Bottom =>
      split at h
      · exact hres p h
      · rcases push_unique_mem h with h' | h'
        · exact hres p h'
        · exact Or.inr (hsort p h')

theorem generate_outline_with_fill_line_nil (fl : ℚ) (bulb : SandBulb) (cY : ℚ) :
    generate_outline_with_fill_line [] fl bulb cY = [] := by
  unfold generate_outline_with_fill_line
  simp

theorem offset_point_snd (w nh cY : ℚ) (p : Point2D) :
    (offset_point w nh cY p).2 = p.2 := by
  unfold offset_point
  dsimp only
  by_cases h : 0 ≤ p.1
  · rw [if_pos h]
  · rw [if_neg h]

theorem generate_outline_with_mounded_fill_line_zero (o : List Point2D)
    (base cY fp : ℚ) :
    generate_outline_with_mounded_fill_line o base cY 0 fp =
      generate_outline_with_fill_line o base SandBulb.Bottom cY := by
  unfold generate_outline_with_mounded_fill_line
  simp

theorem sand_fill_line_top_zero (nh my My : ℚ) :
    sand_fill_line SandBulb.Top 0 nh my My = 0 := by
  unfold sand_fill_line
  dsimp only
  ring

theorem sand_fill_line_bottom_one (nh my My : ℚ) :
    sand_fill_line SandBulb.Bottom 1 nh my My = my := by
  unfold sand_fill_line
  dsimp only
  ring

theorem gso_top_zero_snd (o : List Point2D) (w nh my My mf : ℚ) :
    ∀ p ∈ generate_sand_outline o 0 w SandBulb.Top nh my My mf, p.2 = 0 := by
  intro p hp
  unfold generate_sand_outline at hp
  dsimp only at hp
  split at hp
  · exact absurd hp (List.not_mem_nil p)
  · rw [sand_fill_line_top_zero] at hp
    split at hp
    · exact absurd hp (List.not_mem_nil p)
    · rw [if_neg (by simp)] at hp
      rcases List.mem_map.mp hp with ⟨q, hq, rfl⟩
      rw [offset_point_snd]
      rcases generate_outline_with_fill_line_mem hq with ⟨_, hincl⟩ | hfl
      · simp only [point_included, Bool.and_eq_true, decide_eq_true_eq] at hincl
        linarith [hincl.1, hincl.2]
      · exact hfl

theorem gso_bottom_one_snd (o : List Point2D) (w nh my My : ℚ)
    (hlb : ∀ q ∈ o, my ≤ q.2) :
    ∀ p ∈ generate_sand_outline o 1 w SandBulb.Bottom nh my My 0, p.2 = my := by
  intro p hp
  unfold generate_sand_outline at hp
  dsimp only at hp
  split at hp
  · exact absurd hp (List.not_mem_nil p)
  · rw [sand_fill_line_bottom_one,
      generate_outline_with_mounded_fill_line_zero] at hp
    split at hp
    · exact absurd hp (List.not_mem_nil p)
    · rw [if_neg (by simp)] at hp
      rcases List.mem_map.mp hp with ⟨q, hq, rfl⟩
      rw [offset_point_snd]
      rcases generate_outline_with_fill_line_mem hq with ⟨hqo, hincl⟩ | hfl
      · simp only [point_included, Bool.and_eq_true, decide_eq_true_eq] at hincl
        exact le_antisymm hincl.2 (hlb q hqo)
      · exact hfl

theorem sand_width_bounds_nil (base : ℚ) : sand_width_bounds [] base = (0, 0) := by
  unfold sand_width_bounds
  simp

theorem generate_outline_with_mounded_fill_line_nil (base cY mf fp : ℚ) :
    generate_outline_with_mounded_fill_line [] base cY mf fp = [] := by
  unfold generate_outline_with_mounded_fill_line
  norm_num [sand_width_bounds, generate_outline_with_fill_line_nil]

theorem mound_inter_form {o : List Point2D} {cY : ℚ} {mfl : ℚ → ℚ} {i : ℕ} {q : Point2D}
    (h : mound_inter o cY mfl i = some q) : ∃ x, q = (x, mfl x) := by
  unfold mound_inter at h
  dsimp only at h
  split at h
  · rcases Option.map_eq_some'.mp h with ⟨j, _, hj⟩
    exact ⟨_, hj.symm⟩
  · exact absurd h (by simp)

theorem mound_step_mem {o : List Point2D} {cY : ℚ} {mfl : ℚ → ℚ} {i : ℕ} {p : Point2D}
    (hi : i < o.length) (h : p ∈ mound_step o cY mfl i) :
    (p ∈ o ∧ mound_included cY mfl p = true) ∨ ∃ x, p = (x, mfl x) := by
  unfold mound_step at h
  dsimp only at h
  rcases List.mem_append.mp h with h' | h'
  · split at h'
    next hic =>
      simp only [List.mem_singleton] at h'
      exact Or.inl ⟨h' ▸ getD_mem o i (0, 0) hi, h' ▸ hic⟩
    next => exact absurd h' (List.not_mem_nil p)
  · split at h'
    next q' heq =>
      simp only [List.mem_singleton] at h'
      exact Or.inr (h' ▸ mound_inter_form heq)
    next => exact absurd h' (List.not_mem_nil p)

theorem generate_outline_with_mounded_fill_line_le {o : List Point2D} {base cY mf fp : ℚ}
    (hmf : mf ≠ 0) (hsw : (sand_width_bounds o base).1 < (sand_width_bounds o base).2) :
    ∀ q ∈ generate_outline_with_mounded_fill_line o base cY mf fp,
      q.2 ≤ mounded_fill_line base (mf * fp) (sand_width_bounds o base).1
        (sand_width_bounds o base).2 q.1 := by
  intro q hq
  have hres : ∀ r ∈ (List.range o.length).flatMap
      (mound_step o cY (mounded_fill_line base (mf * fp) (sand_width_bounds o base).1
        (sand_width_bounds o base).2)),
      r.2 ≤ mounded_fill_line base (mf * fp) (sand_width_bounds o base).1
        (sand_width_bounds o base).2 r.1 := by
    intro r hr
    rcases List.mem_flatMap.mp hr with ⟨i, hir, hstep⟩
    rcases mound_step_mem (List.mem_range.mp hir) hstep with ⟨_, hincl⟩ | ⟨x, rfl⟩
    · simp only [mound_included, Bool.and_eq_true, decide_eq_true_eq] at hincl
      exact hincl.2
    · exact le_refl _
  unfold generate_outline_with_mounded_fill_line at hq
  rw [if_neg hmf] at hq
  dsimp only at hq
  rw [if_neg (not_le.mpr (by linarith))] at hq
  split at hq
  · exact hres q hq
  · split at hq
    · rcases List.mem_append.mp hq with h' | h'
      · exact hres q h'
      · rcases List.mem_map.mp h' with ⟨i, _, rfl⟩
        exact le_refl _
    · exact hres q hq

/-! ## Claim theorems -/

/-- C1 (counterexample): the claim that `generate_sand_outline` returns an
empty point sequence for every body outline at `fill_percent = 0` with
`SandBulb::Top`, and at `fill_percent = 1` with `SandBulb::Bottom`, is false:
on a square outline crossing the relevant fill line both calls return
non-empty (degenerate) point sequences, because fill-line intersections are
still collected and appended. -/
theorem C1_counterexample :
    generate_sand_outline sqOutline 0 0 SandBulb.Top 1 (-1) 1 0 ≠ [] ∧
    generate_sand_outline sqOutline 1 0 SandBulb.Bottom 2 (-1) 1 0 ≠ [] := by
  have h1 : generate_sand_outline sqOutline 0 0 SandBulb.Top 1 (-1) 1 0 =
      [(1, 0), (-1, 0)] := by
    norm_num [generate_sand_outline, sand_fill_line, generate_outline_with_fill_line,
      generate_outline_with_mounded_fill_line, fill_line_step, fill_line_inter,
      calculate_line_intersection, point_included, segment_crosses, intersection_valid,
      push_unique, offset_point, f32_epsilon, sqOutline, List.range_succ,
      List.insertionSort, List.orderedInsert, List.getD, List.filterMap_cons,
      abs_lt, abs_le]
    try simp
    try norm_num [offset_point, abs_lt, abs_le]
    try simp
  have h2 : generate_sand_outline sqOutline 1 0 SandBulb.Bottom 2 (-1) 1 0 =
      [(-1, -1), (1, -1), (1, -1), (-1, -1)] := by
    norm_num [generate_sand_outline, sand_fill_line, generate_outline_with_fill_line,
      generate_outline_with_mounded_fill_line, fill_line_step, fill_line_inter,
      calculate_line_intersection, point_included, segment_crosses, intersection_valid,
      push_unique, offset_point, f32_epsilon, sqOutline, List.range_succ,
      List.insertionSort, List.orderedInsert, List.getD, List.filterMap_cons,
      abs_lt, abs_le]
    try simp
    try norm_num [offset_point, abs_lt, abs_le]
    try simp
  exact ⟨by simp [h1], by simp [h2]⟩

/-- C1 (amended): with `fill_percent = 0` for `SandBulb::Top` every returned
point lies on the fill line `y = center_y = 0`; with `fill_percent = 1` for
`SandBulb::Bottom`, zero mound factor, and `min_y` a lower bound of the
outline, every returned point lies on the fill line `y = min_y`.  The result
is a zero-area degenerate polygon, but not necessarily the empty sequence. -/
theorem C1_degenerate_on_fill_line (o : List Point2D) (w nh my My mf : ℚ) :
    (∀ p ∈ generate_sand_outline o 0 w SandBulb.Top nh my My mf, p.2 = 0) ∧
    (mf = 0 → (∀ q ∈ o, my ≤ q.2) →
      ∀ p ∈ generate_sand_outline o 1 w SandBulb.Bottom nh my My mf, p.2 = my) := by
  refine ⟨gso_top_zero_snd o w nh my My mf, fun hmf hlb => ?_⟩
  subst hmf
  exact gso_bottom_one_snd o w nh my My hlb

/-- C1 (witness): the amended statement instantiated on the square outline. -/
theorem C1_degenerate_witness :
    ((0 : ℚ) = 0) ∧ (∀ q ∈ sqOutline, (-1 : ℚ) ≤ q.2) ∧
    (∀ p ∈ generate_sand_outline sqOutline 0 0 SandBulb.Top 1 (-1) 1 0, p.2 = 0) ∧
    (∀ p ∈ generate_sand_outline sqOutline 1 0 SandBulb.Bottom 1 (-1) 1 0, p.2 = -1) :=
  ⟨rfl, by norm_num [sqOutline],
   (C1_degenerate_on_fill_line sqOutline 0 1 (-1) 1 0).1,
   (C1_degenerate_on_fill_line sqOutline 0 1 (-1) 1 0).2 rfl (by norm_num [sqOutline])⟩

/-- C3 (counterexample): the claim that the bottom fill line never rises above
`neck_bottom = center_y - neck_height/2` fails for degenerate vertical bounds:
with `fill_percent = 1 ∈ [0,1]`, `neck_height = 2` and `min_y = 5` the
computed bottom fill line is `5`, strictly above `neck_bottom = -1`. -/
theorem C3_cap_counterexample :
    (0 : ℚ) ≤ 1 ∧ (1 : ℚ) ≤ 1 ∧
    sand_fill_line SandBulb.Bottom 1 2 5 10 = 5 ∧
    ¬ sand_fill_line SandBulb.Bottom 1 2 5 10 ≤ 0 - 2 / 2 := by
  norm_num [sand_fill_line]

/-- C3 (amended): for `fill_percent ∈ [0,1]` the fill line is placed at
`center_y + fill_percent*(max_y - center_y)` for `Top` and at
`min_y + (1 - fill_percent)*(neck_bottom - min_y)` for `Bottom` with
`neck_bottom = center_y - neck_height/2`; the bottom fill line stays at or
below `neck_bottom` provided `min_y ≤ neck_bottom`. -/
theorem C3_fill_line_placement (fp nh my My : ℚ) (h0 : 0 ≤ fp) (h1 : fp ≤ 1) :
    sand_fill_line SandBulb.Top fp nh my My = 0 + fp * (My - 0) ∧
    sand_fill_line SandBulb.Bottom fp nh my My = my + (1 - fp) * ((0 - nh / 2) - my) ∧
    (my ≤ 0 - nh / 2 → sand_fill_line SandBulb.Bottom fp nh my My ≤ 0 - nh / 2) := by
  refine ⟨rfl, rfl, fun hmy => ?_⟩
  unfold sand_fill_line
  dsimp only
  nlinarith [mul_le_mul_of_nonneg_right (by linarith : 1 - fp ≤ 1)
    (by linarith : (0 : ℚ) ≤ (0 - nh / 2) - my)]

/-- C3 (witness): the fill-line placement at `fill_percent = 1/2`,
`neck_height = 8`, bounds `[-100, 100]`. -/
theorem C3_fill_line_witness :
    (0 : ℚ) ≤ 1 / 2 ∧ (1 / 2 : ℚ) ≤ 1 ∧
    (sand_fill_line SandBulb.Top (1 / 2) 8 (-100) 100 = 0 + 1 / 2 * (100 - 0) ∧
     sand_fill_line SandBulb.Bottom (1 / 2) 8 (-100) 100 =
       -100 + (1 - 1 / 2) * ((0 - 8 / 2) - -100) ∧
     ((-100 : ℚ) ≤ 0 - 8 / 2 →
       sand_fill_line SandBulb.Bottom (1 / 2) 8 (-100) 100 ≤ 0 - 8 / 2)) :=
  ⟨by norm_num, by norm_num,
   C3_fill_line_placement (1 / 2) 8 (-100) 100 (by norm_num) (by norm_num)⟩

/-- C4 (counterexample): the claimed 1-unit minimum gap per side is not what
the code enforces: on an outline edge inside the neck band, the point `(1,-1)`
(one unit right of the centerline) is inset to `(1/2, -1)` — a returned
neck-band point strictly less than one unit from the centerline. -/
theorem C4_counterexample :
    ((1 : ℚ) / 2, (-1 : ℚ)) ∈
      generate_sand_outline neckBandOutline 0 5 SandBulb.Bottom 2 (-2) 1 0 ∧
    |(-1 : ℚ) - 0| ≤ 2 / 2 ∧ (1 : ℚ) / 2 < 1 := by
  have h : generate_sand_outline neckBandOutline 0 5 SandBulb.Bottom 2 (-2) 1 0 =
      [(1 / 2, -1), (-4, -2), (4, -2), (-1 / 2, -1)] := by
    norm_num [generate_sand_outline, sand_fill_line, generate_outline_with_fill_line,
      generate_outline_with_mounded_fill_line, fill_line_step, fill_line_inter,
      calculate_line_intersection, point_included, segment_crosses, intersection_valid,
      push_unique, offset_point, f32_epsilon, neckBandOutline, List.range_succ,
      List.insertionSort, List.orderedInsert, List.getD, List.filterMap_cons,
      abs_lt, abs_le]
    try simp
    try norm_num [offset_point, abs_lt, abs_le]
    try simp
  refine ⟨by simp [h], by norm_num, by norm_num⟩

/-- C4 (amended): inside the neck band the wall-offset inset never moves a
point across the vertical centerline — right-side points keep `x ≥ 0` and
left-side points keep `x ≤ 0` — and the clamp enforces a minimum half-unit
clearance per side (a 1-unit total gap) whenever the original point is at
least half a unit from the centerline. -/
theorem C4_neck_band_no_crossing (w nh : ℚ) (p : Point2D) (hw : 0 ≤ w)
    (hband : |p.2 - 0| ≤ nh / 2) :
    (0 ≤ p.1 → 0 ≤ (offset_point w nh 0 p).1 ∧
      (1 / 2 ≤ p.1 → 1 / 2 ≤ (offset_point w nh 0 p).1)) ∧
    (p.1 < 0 → (offset_point w nh 0 p).1 ≤ 0 ∧
      (p.1 ≤ -(1 / 2) → (offset_point w nh 0 p).1 ≤ -(1 / 2))) := by
  unfold offset_point
  dsimp only
  rw [if_pos hband]
  constructor
  · intro hx
    simp only [if_pos hx]
    by_cases hpot : p.1 - w ≤ 1 / 2
    · rw [if_pos ⟨hx, hpot⟩]
      rcases le_total (p.1 - 1 / 2) 0 with hmax | hmax
      · rw [max_eq_right hmax]
        constructor
        · linarith
        · intro hhalf; linarith
      · rw [max_eq_left hmax]
        constructor
        · linarith
        · intro hhalf; linarith
    · rw [if_neg (fun hc => hpot hc.2),
        if_neg (fun hc => absurd hx (not_le.mpr hc.1))]
      constructor
      · linarith
      · intro hhalf; linarith
  · intro hx
    simp only [if_neg (not_le.mpr hx)]
    rw [if_neg (fun hc => absurd hc.1 (not_le.mpr hx))]
    by_cases hpot : -(1 / 2) ≤ p.1 + w
    · rw [if_pos ⟨hx, hpot⟩]
      rcases le_total (-p.1 - 1 / 2) 0 with hmax | hmax
      · rw [max_eq_right hmax]
        constructor
        · linarith
        · intro hhalf; linarith
      · rw [max_eq_left hmax]
        constructor
        · linarith
        · intro hhalf; linarith
    · rw [if_neg (fun hc => hpot hc.2)]
      constructor
      · linarith
      · intro hhalf; linarith

/-- C4 (witness): the neck-band clamp at the concrete point `(1, -1)` with
`wall_offset = 5` and `neck_height = 2`. -/
theorem C4_neck_band_witness :
    (0 : ℚ) ≤ 5 ∧ |(((1 : ℚ), (-1 : ℚ)) : Point2D).2 - 0| ≤ 2 / 2 ∧
    ((0 ≤ (((1 : ℚ), (-1 : ℚ)) : Point2D).1 →
        0 ≤ (offset_point 5 2 0 (1, -1)).1 ∧
        (1 / 2 ≤ (((1 : ℚ), (-1 : ℚ)) : Point2D).1 →
          1 / 2 ≤ (offset_point 5 2 0 (1, -1)).1)) ∧
     ((((1 : ℚ), (-1 : ℚ)) : Point2D).1 < 0 →
        (offset_point 5 2 0 (1, -1)).1 ≤ 0 ∧
        ((((1 : ℚ), (-1 : ℚ)) : Point2D).1 ≤ -(1 / 2) →
          (offset_point 5 2 0 (1, -1)).1 ≤ -(1 / 2)))) :=
  ⟨by norm_num, by norm_num,
   C4_neck_band_no_crossing 5 2 (1, -1) (by norm_num) (by norm_num)⟩

/-- C9 (counterexample): the total polygon area for `SandBulb::Top` is not
monotone in `fill_percent`: on the apex outline with bounds `[-100, 2]` the
area at fill `3/4` is strictly smaller than at fill `1/2` (raising the fill
line moves the first retained point, narrowing the falling-stream strip). -/
theorem C9_counterexample :
    (1 / 2 : ℚ) < 3 / 4 ∧
    polygon_area (generate_sand_outline apexOutline (3 / 4) 0 SandBulb.Top 0 (-100) 2 0) <
      polygon_area (generate_sand_outline apexOutline (1 / 2) 0 SandBulb.Top 0 (-100) 2 0) := by
  have hA : generate_sand_outline apexOutline (1 / 2) 0 SandBulb.Top 0 (-100) 2 0 =
      [(3, 1), (3, 1), (-3, 1), (-3, 1), (-3, -100), (3, -100)] := by
    norm_num [generate_sand_outline, sand_fill_line, generate_outline_with_fill_line,
      fill_line_step, fill_line_inter, calculate_line_intersection, point_included,
      segment_crosses, intersection_valid, push_unique, offset_point, f32_epsilon,
      apexOutline, List.range_succ, List.insertionSort, List.orderedInsert, List.getD,
      List.filterMap_cons, abs_lt, abs_le]
    try simp
    try norm_num [offset_point, abs_lt, abs_le]
    try simp
  have hB : generate_sand_outline apexOutline (3 / 4) 0 SandBulb.Top 0 (-100) 2 0 =
      [(1 / 10, 3 / 2), (3, 1), (-3, 1), (-3, -100), (1 / 10, -100)] := by
    norm_num [generate_sand_outline, sand_fill_line, generate_outline_with_fill_line,
      fill_line_step, fill_line_inter, calculate_line_intersection, point_included,
      segment_crosses, intersection_valid, push_unique, offset_point, f32_epsilon,
      apexOutline, List.range_succ, List.insertionSort, List.orderedInsert, List.getD,
      List.filterMap_cons, abs_lt, abs_le]
    try simp
    try norm_num [offset_point, abs_lt, abs_le]
    try simp
  refine ⟨by norm_num, ?_⟩
  rw [hA, hB]
  norm_num [polygon_area, shoelace_sum, shoelace_term, List.range_succ, List.getD,
    abs_of_pos]

/-- C9 (amended): the area is not monotone in `fill_percent` in general, but
it is minimal at `fill_percent = 0`: there the returned polygon has area
exactly `0`, and every other fill level yields area `≥ 0`. -/
theorem C9_area_minimum_at_zero (o : List Point2D) (w nh my My mf : ℚ) :
    polygon_area (generate_sand_outline o 0 w SandBulb.Top nh my My mf) = 0 ∧
    ∀ fp, 0 ≤ polygon_area (generate_sand_outline o fp w SandBulb.Top nh my My mf) := by
  constructor
  · have hy := gso_top_zero_snd o w nh my My mf
    have hzero : shoelace_sum (generate_sand_outline o 0 w SandBulb.Top nh my My mf) = 0 := by
      unfold shoelace_sum
      apply foldl_add_eq_of_zero
      intro i hi
      have hlen := List.mem_range.mp hi
      have hpos : 0 < (generate_sand_outline o 0 w SandBulb.Top nh my My mf).length :=
        lt_of_le_of_lt (Nat.zero_le i) hlen
      unfold shoelace_term
      dsimp only
      rw [hy _ (getD_mem _ i (0, 0) hlen),
        hy _ (getD_mem _ ((i + 1) % _) (0, 0) (Nat.mod_lt _ hpos))]
      ring
    unfold polygon_area
    rw [hzero]
    norm_num
  · intro fp
    unfold polygon_area
    positivity

/-- C6: for the bottom bulb with a nonzero mound factor and positive sand
width, the outline is clipped against the mounded boundary: every returned
point lies on or below `mounded_fill_line`, which equals
`base_fill_line + (mound_factor * fill_percent) * sand_width * 0.1 *
(1 - normalized_x²)` with the normalized x clamped into `[-1, 1]`; with a zero
mound factor the flat fill-line clipping is used instead. -/
theorem C6_mounded_clipping (o : List Point2D) (base cY mf fp : ℚ) (hmf : mf ≠ 0)
    (hsw : (sand_width_bounds o base).1 < (sand_width_bounds o base).2) :
    (∀ q ∈ generate_outline_with_mounded_fill_line o base cY mf fp,
       q.2 ≤ mounded_fill_line base (mf * fp) (sand_width_bounds o base).1
         (sand_width_bounds o base).2 q.1) ∧
    (∀ l r x : ℚ, l < r →
       mounded_fill_line base (mf * fp) l r x =
         base + mf * fp * (r - l) * (1 / 10) *
           (1 - max (-1) (min ((x - (l + r) * (1 / 2)) / ((r - l) * (1 / 2))) 1) *
             max (-1) (min ((x - (l + r) * (1 / 2)) / ((r - l) * (1 / 2))) 1))) ∧
    (∀ fp' : ℚ, generate_outline_with_mounded_fill_line o base cY 0 fp' =
       generate_outline_with_fill_line o base SandBulb.Bottom cY) := by
  refine ⟨generate_outline_with_mounded_fill_line_le hmf hsw, fun l r x hlr => ?_,
    fun fp' => generate_outline_with_mounded_fill_line_zero o base cY fp'⟩
  unfold mounded_fill_line
  dsimp only
  rw [if_neg (not_le.mpr (by linarith))]

/-- C6 (witness): the mounded clipping on the wide square outline with
`base_fill_line = -1`, `mound_factor = 1`, `fill_percent = 1/2`. -/
theorem C6_mounded_clipping_witness :
    (1 : ℚ) ≠ 0 ∧
    (sand_width_bounds wideOutline (-1)).1 < (sand_width_bounds wideOutline (-1)).2 ∧
    (∀ q ∈ generate_outline_with_mounded_fill_line wideOutline (-1) 0 1 (1 / 2),
       q.2 ≤ mounded_fill_line (-1) (1 * (1 / 2)) (sand_width_bounds wideOutline (-1)).1
         (sand_width_bounds wideOutline (-1)).2 q.1) := by
  have hsw : (sand_width_bounds wideOutline (-1)).1 < (sand_width_bounds wideOutline (-1)).2 := by
    have h : sand_width_bounds wideOutline (-1) = (-2, 2) := by
      norm_num [sand_width_bounds, calculate_line_intersection, f32_epsilon, wideOutline,
        List.range_succ, List.getD, abs_lt, abs_le]
    rw [h]
    norm_num
  exact ⟨by norm_num, hsw,
    (C6_mounded_clipping wideOutline (-1) 0 1 (1 / 2) (by norm_num) hsw).1⟩

/-- C7: for the top bulb with positive fill and a non-empty clipped point
set, `generate_sand_outline` is exactly the offset clipped points followed by
two final points at `y = min_y` whose x-coordinates are those of the last
(right neck) and first (left neck) sand points; at `fill_percent = 0`, and for
the bottom bulb, no falling-stream points are appended. -/
theorem C7_falling_stream (o : List Point2D) (fp w nh my My mf : ℚ) :
    (0 < fp → top_sand_points o fp w nh my My ≠ [] →
      generate_sand_outline o fp w SandBulb.Top nh my My mf =
        top_sand_points o fp w nh my My ++
          [(((top_sand_points o fp w nh my My).getLastD (0, 0)).1, my),
           (((top_sand_points o fp w nh my My).headD (0, 0)).1, my)]) ∧
    (generate_sand_outline o 0 w SandBulb.Top nh my My mf =
      top_sand_points o 0 w nh my My) ∧
    (generate_sand_outline o fp w SandBulb.Bottom nh my My mf =
      (generate_outline_with_mounded_fill_line o
          (sand_fill_line SandBulb.Bottom fp nh my My) 0 mf fp).map
        (offset_point w nh 0)) := by
  refine ⟨?_, ?_, ?_⟩
  · intro hfp hne
    have ho : o ≠ [] := by
      intro ho
      apply hne
      unfold top_sand_points
      rw [ho, generate_outline_with_fill_line_nil]
      rfl
    have hfil : generate_outline_with_fill_line o
        (sand_fill_line SandBulb.Top fp nh my My) SandBulb.Top 0 ≠ [] := by
      intro hf
      apply hne
      unfold top_sand_points
      rw [hf]
      rfl
    unfold generate_sand_outline
    rw [if_neg ho]
    dsimp only
    rw [if_neg hfil, if_pos ⟨rfl, fun hs => hne hs, hfp⟩]
    unfold top_sand_points
    rfl
  · unfold generate_sand_outline
    by_cases ho : o = []
    · rw [if_pos ho]
      unfold top_sand_points
      rw [ho, generate_outline_with_fill_line_nil]
      rfl
    · rw [if_neg ho]
      dsimp only
      by_cases hfil : generate_outline_with_fill_line o
          (sand_fill_line SandBulb.Top 0 nh my My) SandBulb.Top 0 = []
      · rw [if_pos hfil]
        unfold top_sand_points
        rw [hfil]
        rfl
      · rw [if_neg hfil, if_neg (by simp)]
        unfold top_sand_points
        rfl
  · unfold generate_sand_outline
    by_cases ho : o = []
    · rw [if_pos ho, ho, generate_outline_with_mounded_fill_line_nil]
      rfl
    · rw [if_neg ho]
      dsimp only
      by_cases hfil : generate_outline_with_mounded_fill_line o
          (sand_fill_line SandBulb.Bottom fp nh my My) 0 mf fp = []
      · rw [if_pos hfil, hfil]
        rfl
      · rw [if_neg hfil, if_neg (by simp)]

/-- C7 (witness): the stream points on the square outline at fill `1/2`. -/
theorem C7_falling_stream_witness :
    (0 : ℚ) < 1 / 2 ∧ top_sand_points sqOutline (1 / 2) 0 1 (-1) 1 ≠ [] ∧
    generate_sand_outline sqOutline (1 / 2) 0 SandBulb.Top 1 (-1) 1 0 =
      top_sand_points sqOutline (1 / 2) 0 1 (-1) 1 ++
        [(((top_sand_points sqOutline (1 / 2) 0 1 (-1) 1).getLastD (0, 0)).1, -1),
         (((top_sand_points sqOutline (1 / 2) 0 1 (-1) 1).headD (0, 0)).1, -1)] := by
  have h : top_sand_points sqOutline (1 / 2) 0 1 (-1) 1 = [(1, 1 / 2), (-1, 1 / 2)] := by
    norm_num [top_sand_points, sand_fill_line, generate_outline_with_fill_line,
      fill_line_step, fill_line_inter, calculate_line_intersection, point_included,
      segment_crosses, intersection_valid, push_unique, offset_point, f32_epsilon,
      sqOutline, List.range_succ, List.insertionSort, List.orderedInsert, List.getD,
      List.filterMap_cons, abs_lt, abs_le]
    try simp
    try norm_num [offset_point, abs_lt, abs_le]
    try simp
  have hne : top_sand_points sqOutline (1 / 2) 0 1 (-1) 1 ≠ [] := by
    rw [h]
    simp
  exact ⟨by norm_num, hne,
    (C7_falling_stream sqOutline (1 / 2) 0 1 (-1) 1 0).1 (by norm_num) hne⟩

theorem arc_length_generate_points (a : CircularArc) {r : ℕ} (hr : 1 ≤ r) :
    (a.generate_points r).length = r + 1 := by
  unfold CircularArc.generate_points
  rw [if_neg (by omega)]
  rw [List.length_map, List.length_range]

theorem transition_length_generate_points (s : SmoothTransition) {r : ℕ}
    (hr : 1 ≤ r) : (s.generate_points r).length = r + 1 := by
  unfold SmoothTransition.generate_points
  rw [if_neg (by omega)]
  rw [List.length_map, List.length_range]

theorem segment_length_generate_points (sg : CurveSegment) {r : ℕ} (hr : 1 ≤ r) :
    (sg.generate_points r).length = r + 1 := by
  cases sg with
  | arc a => exact arc_length_generate_points a hr
  | transition s => exact transition_length_generate_points s hr

theorem composite_sample_length (s : CurveSegment) (rest : List CurveSegment) (sr : ℕ)
    (hr : 1 ≤ sr) :
    (composite_sample (s :: rest) sr).length = (rest.length + 1) * sr + 1 := by
  unfold composite_sample
  rw [List.length_append, segment_length_generate_points s hr]
  have htail : (rest.flatMap fun sg => (sg.generate_points sr).tail).length =
      rest.length * sr := by
    induction rest with
    | nil => simp
    | cons x xs ih =>
        rw [List.flatMap_cons, List.length_append, ih, List.length_tail,
          segment_length_generate_points x hr]
        simp only [List.length_cons]
        ring_nf
        omega
  rw [htail]
  ring

/-- C2 (code bug): the clockwise branch of `CircularArc::generate_points`
computes the counterclockwise angular span, so the final sample lands at angle
`2*start_angle - end_angle` instead of `end_angle`: for the clockwise arc from
`π` to `π/2` on the unit circle at resolution 1, the last generated point is
`(0, -1)` while `end_point()` is `(0, 1)`, violating the documented contract
that the last element of `generate_points` equals `end_point()`. -/
theorem C2_clockwise_endpoint_bug :
    (cwArc.generate_points 1).getLastD (0, 0) ≠ cwArc.end_point := by
  have hle : Real.pi / 2 ≤ Real.pi := half_le_self Real.pi_pos.le
  have hlast : (cwArc.generate_points 1).getLastD (0, 0) = cwArc.point_at 1 := by
    unfold CircularArc.generate_points
    rw [if_neg one_ne_zero]
    rw [show List.range 2 = [0, 1] from rfl]
    norm_num
  have hdiff : cwArc.angle_diff = Real.pi / 2 + 2 * Real.pi - Real.pi := by
    unfold CircularArc.angle_diff cwArc
    dsimp only
    rw [if_pos hle]
    simp
  have hsnd : (cwArc.point_at 1).2 = -1 := by
    unfold CircularArc.point_at
    dsimp only
    rw [hdiff]
    simp only [cwArc]
    rw [if_pos trivial]
    rw [show Real.pi - 1 * (Real.pi / 2 + 2 * Real.pi - Real.pi) = -(Real.pi / 2) from
      by ring]
    rw [Real.sin_neg, Real.sin_pi_div_two]
    norm_num
  have hend : (cwArc.end_point).2 = 1 := by
    unfold CircularArc.end_point cwArc
    dsimp only
    rw [Real.sin_pi_div_two]
    norm_num
  intro h
  have h2 := congrArg Prod.snd h
  rw [hlast, hsnd, hend] at h2
  norm_num at h2

/-- C5: a composite curve with at least one segment samples every segment at
the shared resolution `n / k` (integer division); when `n / k ≥ 1` the result
has exactly `k * (n / k) + 1` points (the duplicate leading point of every
segment after the first is dropped), and `start_point` / `end_point` are the
start of the first segment and the end of the last segment. -/
theorem C5_composite_resolution_split (c : CompositeCurve) (n : ℕ)
    (hk : c.segments ≠ []) (hr : 1 ≤ n / c.segments.length) :
    (c.generate_points n).length = c.segments.length * (n / c.segments.length) + 1 ∧
    c.start_point = (c.segments.head hk).start_point ∧
    c.end_point = (c.segments.getLast hk).end_point := by
  refine ⟨?_, ?_, ?_⟩
  · obtain ⟨s, rest, hseg⟩ : ∃ s rest, c.segments = s :: rest := by
      rcases hs : c.segments with _ | ⟨s, rest⟩
      · exact absurd hs hk
      · exact ⟨s, rest, rfl⟩
    rw [hseg] at hr
    unfold CompositeCurve.generate_points
    rw [hseg]
    rw [if_neg (by simp)]
    have h1 : (1 : ℕ) ≤ (s :: rest).length := by simp
    rw [Nat.max_eq_left h1]
    rw [composite_sample_length s rest _ hr]
    simp only [List.length_cons]
  · unfold CompositeCurve.start_point
    rw [List.head?_eq_head hk]
    rfl
  · unfold CompositeCurve.end_point
    rw [List.getLast?_eq_getLast_of_ne_nil hk]
    rfl

/-- C5 (witness): a one-segment composite (a straight transition) sampled at
total resolution 2 yields `1 * (2/1) + 1 = 3` points. -/
theorem C5_composite_witness :
    lineComposite.segments ≠ [] ∧ 1 ≤ 2 / lineComposite.segments.length ∧
    (lineComposite.generate_points 2).length =
      lineComposite.segments.length * (2 / lineComposite.segments.length) + 1 :=
  ⟨by simp [lineComposite], by norm_num [lineComposite],
   (C5_composite_resolution_split lineComposite 2 (by simp [lineComposite])
      (by norm_num [lineComposite])).1⟩

/-- C8: at resolution 0 both curve variants return exactly the two-element
sequence of their start and end points. -/
theorem C8_resolution_zero_exact (a : CircularArc) (s : SmoothTransition) :
    a.generate_points 0 = [a.start_point, a.end_point] ∧
    s.generate_points 0 = [s.start_point, s.end_point] :=
  ⟨rfl, rfl⟩

/-- C10: a composite curve with no segments returns the empty point sequence
at every resolution, and both `start_point` and `end_point` fall back to the
origin instead of failing. -/
theorem C10_empty_composite_defaults (n : ℕ) :
    (CompositeCurve.mk []).generate_points n = [] ∧
    (CompositeCurve.mk []).start_point = (0, 0) ∧
    (CompositeCurve.mk []).end_point = (0, 0) :=
  ⟨rfl, rfl, rfl⟩

end Hourglass
